import Mathlib

/-!
selfbotm: the command handler, the periodic controller and the broadcaster.

A shallow embedding of `src/main.go`.

* Go strings are Lean `String`s; the three routines of package `strings` the
  program calls (`HasPrefix`, `SplitN`, `Contains`) are modelled on the
  characters of the string.  Every text the program searches for is ASCII, so
  searching characters and searching UTF-8 bytes agree.  The only separator
  the program splits on is the one-character string `" "`, so `stringsSplitN`
  takes the separator as a character.
* A Go `error` is its `Error()` text.
* Every call that leaves the process (a chat message, a member fetch, a
  log line, a sleep, a goroutine start, a channel send) is recorded as an
  `Effect`, in program order.
* The package-level variables `ticker`, `stopChan`, `currentGuildID` and
  `currentMessage` are the fields of `State`; `nil` is `none`.
* The handler and the two bodies that run in goroutines (`massDM` and the
  periodic loop) are embedded one by one.  `Process` puts them together on the
  serial schedule: events are handled one at a time, and the goroutine an
  event wakes runs to its next wait before the next event is handled.
  `Interleaved` runs the handlers and the loop in pieces, in any order;
  `serial_run` shows that `Process` is `Interleaved` on the serial schedule.
-/

namespace Selfbotm

/-! ## Package `strings` -/

/-- Go `strings.HasPrefix(s, pre)`. -/
def stringsHasPrefix (s pre : String) : Bool :=
  pre.data.isPrefixOf s.data

/-- Splits at the first occurrence of `sep`: the text before it and the text
after it, or `none` when `sep` does not occur (Go `strings.Index` followed by
the two slices `s[:m]` and `s[m+1:]`). -/
def cutAt (sep : Char) : List Char → Option (List Char × List Char)
  | [] => none
  | c :: cs =>
    if c = sep then some ([], cs)
    else match cutAt sep cs with
      | none => none
      | some (a, r) => some (c :: a, r)

/-- Go `strings.SplitN(s, sep, n)` for a one-character separator, on
characters: at most `n` pieces, the last one the unsplit remainder. -/
def splitChars (sep : Char) : Nat → List Char → List (List Char)
  | 0, _ => []
  | 1, s => [s]
  | n + 2, s =>
    match cutAt sep s with
    | none => [s]
    | some (a, r) => a :: splitChars sep (n + 1) r

/-- Go `strings.SplitN(s, sep, n)` for a one-character separator. -/
def stringsSplitN (s : String) (sep : Char) (n : Nat) : List String :=
  (splitChars sep n s.data).map String.mk

/-- Go `strings.Contains(s, sub)`: `sub` starts at some position of `s`. -/
def stringsContains (s sub : String) : Bool :=
  s.data.tails.any (fun t => sub.data.isPrefixOf t)

/-! ## Data -/

/-- Handle of a `*time.Ticker`: the allocation it came from and its period. -/
structure Ticker where
  ref : Nat
  seconds : Nat
  deriving DecidableEq, Repr

/-- Handle of a `chan bool`. -/
structure Chan where
  ref : Nat
  deriving DecidableEq, Repr

/-- The fields of `discordgo.MessageCreate` the handler reads. -/
structure Message where
  authorID : String
  channelID : String
  content : String
  deriving DecidableEq, Repr

/-- The fields of `discordgo.Member` the broadcaster reads
(`User.ID`, `User.Username`, `User.Bot`). -/
structure Member where
  id : String
  username : String
  bot : Bool
  deriving DecidableEq, Repr

/-- Calls that leave the running function, in program order. -/
inductive Effect where
  /-- `s.ChannelMessageSend(channelID, content)`. -/
  | send (channelID content : String)
  /-- `s.GuildMembers(guildID, after, limit)`. -/
  | guildMembers (guildID after : String) (limit : Nat)
  /-- `s.UserChannelCreate(userID)`. -/
  | userChannelCreate (userID : String)
  /-- `log.Printf` with the formatted line. -/
  | log (line : String)
  /-- `time.Sleep`, in milliseconds. -/
  | sleep (ms : Nat)
  /-- `go massDM(s, guildID, message, replyChannelID)`. -/
  | spawnMassDM (guildID message replyChannelID : String)
  /-- `massDM(s, guildID, message, replyChannelID)` called from the loop. -/
  | callMassDM (guildID message replyChannelID : String)
  /-- `go func() { for { select ... } }()`, with the `m.ChannelID` it captures. -/
  | spawnLoop (replyChannelID : String)
  /-- `time.NewTicker(d)`, with the handle it returns. -/
  | newTicker (t : Ticker)
  /-- `stopChan <- true`, with the value of `stopChan` at that moment. -/
  | chanSend (c : Option Chan)
  /-- `ticker.Stop()`. -/
  | tickerStop (t : Ticker)
  deriving DecidableEq, Repr

/-- The package-level variables, and the next unused allocation number. -/
structure State where
  ticker : Option Ticker
  stopChan : Option Chan
  currentGuildID : String
  currentMessage : String
  fresh : Nat
  deriving DecidableEq, Repr

/-! ## The message handler -/

def usageMassDM : String := "Usage: !massdm <guild_id> <message>"

def usageStartMassDM : String := "Usage: !startmassdm <guild_id> <message>"

def alreadyRunning : String :=
  "Periodic mass DM already running. Use !stopmassdm to stop it first."

def startedNotice : String := "Periodic mass DM started. Sending every 2 minutes."

def stoppedNotice : String := "Periodic mass DM stopped."

def nothingRunning : String := "No periodic mass DM is running."

/-- The `!stopmassdm` block of `messageCreate` (lines 109-116); `out` is what
the handler has emitted so far. -/
def stopBlock (m : Message) (st : State) (out : List Effect) : State × List Effect :=
  if m.content = "!stopmassdm" then
    if st.ticker = none then
      (st, out ++ [Effect.send m.channelID nothingRunning])
    else
      (st, out ++ [Effect.chanSend st.stopChan])
  else (st, out)

/-- The `!startmassdm` block of `messageCreate` (lines 78-107), followed by
the rest of the handler.  The new channel and the new ticker take the next two
allocation numbers; the ticker period is 2 minutes. -/
def startBlock (m : Message) (st : State) (out : List Effect) : State × List Effect :=
  if stringsHasPrefix m.content "!startmassdm " then
    if st.ticker ≠ none then
      (st, out ++ [Effect.send m.channelID alreadyRunning])
    else
      let parts := stringsSplitN m.content ' ' 3
      if parts.length < 3 then
        (st, out ++ [Effect.send m.channelID usageStartMassDM])
      else
        stopBlock m
          { ticker := some ⟨st.fresh + 1, 120⟩
            stopChan := some ⟨st.fresh⟩
            currentGuildID := parts.getD 1 ""
            currentMessage := parts.getD 2 ""
            fresh := st.fresh + 2 }
          (out ++ [Effect.newTicker ⟨st.fresh + 1, 120⟩, Effect.spawnLoop m.channelID,
            Effect.send m.channelID startedNotice])
  else stopBlock m st out

/-- The `!massdm` block of `messageCreate` (lines 66-76), followed by the rest
of the handler. -/
def massdmBlock (m : Message) (st : State) (out : List Effect) : State × List Effect :=
  if stringsHasPrefix m.content "!massdm " then
    let parts := stringsSplitN m.content ' ' 3
    if parts.length < 3 then
      (st, out ++ [Effect.send m.channelID usageMassDM])
    else
      startBlock m st
        (out ++ [Effect.spawnMassDM (parts.getD 1 "") (parts.getD 2 "") m.channelID])
  else startBlock m st out

/-- Go `messageCreate(s, m)`; `selfID` is `s.State.User.ID`.  Returns the
package-level variables after the handler and what it emitted. -/
def messageCreate (selfID : String) (m : Message) (st : State) : State × List Effect :=
  if m.authorID = selfID then (st, [])
  else
    massdmBlock m st
      (if stringsHasPrefix m.content "!ping" then [Effect.send m.channelID "Pong!"] else [])

/-! ## The periodic loop and the scheduler -/

/-- What wakes the `select` of the periodic goroutine: a value on `ticker.C`
or a value on `stopChan`. -/
inductive Wake where
  | tick
  | stop
  deriving DecidableEq, Repr

/-- One round of the `for { select { ... } }` goroutine (lines 93-105) that
captured `replyChannelID`.  Returns the package-level variables, what the
round emitted and whether the goroutine goes round again; `none` is the nil
dereference of `ticker.Stop()` on a nil `ticker`. -/
def loopRound (replyChannelID : String) (w : Wake) (st : State) :
    Option (State × List Effect × Bool) :=
  match w with
  | Wake.tick =>
    some (st, [Effect.callMassDM st.currentGuildID st.currentMessage replyChannelID], true)
  | Wake.stop =>
    match st.ticker with
    | none => none
    | some t =>
      some ({ st with ticker := none },
        [Effect.tickerStop t, Effect.send replyChannelID stoppedNotice], false)

/-- The process between two events: the package-level variables, the periodic
goroutines waiting in their `select` (each with the reply channel it
captured), the number of handler goroutines stuck for ever in a channel send,
whether the process has died of a panic, and everything emitted so far. -/
structure Process where
  st : State
  loops : List String
  blocked : Nat
  crashed : Bool
  trace : List Effect
  deriving DecidableEq, Repr

/-- What the process reacts to. -/
inductive Event where
  /-- The gateway delivers a message to `messageCreate`. -/
  | message (m : Message)
  /-- The ticker of the waiting periodic goroutine fires. -/
  | tick
  deriving DecidableEq, Repr

/-- The process right after start-up: all package-level variables at their
zero value and no goroutine of the controller. -/
def Process.init : Process :=
  { st := ⟨none, none, "", "", 0⟩, loops := [], blocked := 0, crashed := false, trace := [] }

/-- Carries out one effect of the handler, on the serial schedule: the loop
that takes a value from `stopChan` runs its stop branch to the end before
anything else happens (in the program the sender returns at the rendezvous and
the loop runs lines 99-102 afterwards; `Interleaved` has that step apart).  A
goroutine start adds a waiting loop.  A send on `stopChan` is a rendezvous on
an unbuffered channel: it is taken by a waiting loop; with a nil channel or no
waiting loop the sender stays blocked.  Everything else is only recorded. -/
def Process.perform (sys : Process) (e : Effect) : Process :=
  match e with
  | Effect.spawnLoop ch => { sys with loops := sys.loops ++ [ch], trace := sys.trace ++ [e] }
  | Effect.chanSend c =>
    match c, sys.loops with
    | none, _ => { sys with blocked := sys.blocked + 1, trace := sys.trace ++ [e] }
    | some _, [] => { sys with blocked := sys.blocked + 1, trace := sys.trace ++ [e] }
    | some _, ch :: rest =>
      match loopRound ch Wake.stop sys.st with
      | none => { sys with loops := rest, crashed := true, trace := sys.trace ++ [e] }
      | some (st, out, again) =>
        { sys with
          st := st
          loops := if again then ch :: rest else rest
          trace := sys.trace ++ [e] ++ out }
  | _ => { sys with trace := sys.trace ++ [e] }

/-- One event on the serial schedule, handled to the end before the next one
is looked at: a message runs `messageCreate` and carries out what it emitted;
a tick wakes the first waiting loop, which calls `massDM` and is back in its
`select` before the next event.  Handlers that overlap, and events that arrive
while `massDM` runs, are steps of `Interleaved`, not of `Process`. -/
def Process.step (selfID : String) (sys : Process) (ev : Event) : Process :=
  if sys.crashed then sys
  else
    match ev with
    | Event.message m =>
      let r := messageCreate selfID m sys.st
      r.2.foldl Process.perform { sys with st := r.1 }
    | Event.tick =>
      match sys.loops with
      | [] => sys
      | ch :: rest =>
        match loopRound ch Wake.tick sys.st with
        | none => { sys with loops := rest, crashed := true }
        | some (st, out, again) =>
          { sys with
            st := st
            loops := if again then ch :: rest else rest
            trace := sys.trace ++ out }

/-- A sequence of events, one after the other. -/
def Process.run (selfID : String) (sys : Process) (evs : List Event) : Process :=
  evs.foldl (Process.step selfID) sys

/-- Whether an effect is an invocation of `massDM` (spawned or called). -/
def Effect.isMassDM : Effect → Bool
  | Effect.spawnMassDM _ _ _ => true
  | Effect.callMassDM _ _ _ => true
  | _ => false

/-! ## The broadcaster -/

/-- The answers of the chat service during one run of `massDM`.  The outcome
of the two per-member calls may differ from one member to the next, so they
are indexed by the position of the member in the fetched list. -/
structure World where
  guildMembers : String → Except String (List Member)
  userChannelCreate : Nat → String → Except String String
  channelMessageSend : Nat → String → String → Except String Unit

def fetchErrorText (err : String) : String := "Error fetching members: " ++ err

def progressText (n : Nat) : String :=
  "Starting mass DM to " ++ toString n ++ " members. This may take time."

def summaryText (sent total : Nat) : String :=
  "Mass DM complete. Sent to " ++ toString sent ++ "/" ++ toString total ++ " members."

def createErrorLine (username err : String) : String :=
  "Error creating DM with " ++ username ++ ": " ++ err

def sendErrorLine (username err : String) : String :=
  "Error sending DM to " ++ username ++ ": " ++ err

/-- The body of the `for _, member := range members` loop (lines 132-157) for
the member at position `i`: what it emits and whether it runs
`successCount++`. -/
def deliver (w : World) (message : String) (i : Nat) (member : Member) : List Effect × Bool :=
  if member.bot then ([], false)
  else
    match w.userChannelCreate i member.id with
    | Except.error err =>
      ([Effect.userChannelCreate member.id, Effect.log (createErrorLine member.username err)],
        false)
    | Except.ok channel =>
      match w.channelMessageSend i channel message with
      | Except.error err =>
        ([Effect.userChannelCreate member.id, Effect.send channel message,
            Effect.log (sendErrorLine member.username err)]
          ++ (if stringsContains err "429" then [Effect.sleep 60000] else [])
          ++ [Effect.sleep 1500], false)
      | Except.ok _ =>
        ([Effect.userChannelCreate member.id, Effect.send channel message, Effect.sleep 1500],
          true)

/-- The `for _, member := range members` loop of `massDM` from position `i`
on, with `successCount` as it stands: the final `successCount` and what the
loop emitted. -/
def massDMLoop (w : World) (message : String) :
    Nat → List Member → Nat → Nat × List Effect
  | _, [], successCount => (successCount, [])
  | i, member :: rest, successCount =>
    let r := deliver w message i member
    let k := massDMLoop w message (i + 1) rest (if r.2 then successCount + 1 else successCount)
    (k.1, r.1 ++ k.2)

/-- Go `massDM(s, guildID, message, replyChannelID)`: everything it emits. -/
def massDM (w : World) (guildID message replyChannelID : String) : List Effect :=
  match w.guildMembers guildID with
  | Except.error err =>
    [Effect.guildMembers guildID "" 1000, Effect.send replyChannelID (fetchErrorText err)]
  | Except.ok members =>
    let r := massDMLoop w message 0 members 0
    [Effect.guildMembers guildID "" 1000,
      Effect.send replyChannelID (progressText members.length)]
      ++ r.2 ++ [Effect.send replyChannelID (summaryText r.1 members.length)]

/-! ## Interleaved runs

Handlers and the periodic loop are goroutines, and nothing in the program
orders their accesses to the package-level variables.  `Interleaved` runs them
in pieces: a handler is cut where it first writes a package-level variable
(line 89) or blocks (line 115), the loop is cut at its `select`, inside
`massDM` and after it has taken the stop signal.  Every sequence of steps is
one interleaving of the program; `Process` is the schedule in which each piece
follows the previous one at once. -/

/-- Where a periodic goroutine stands. -/
inductive Phase where
  /-- Blocked in the `select` of line 95, on the ticker and the channel that
  `ticker` and `stopChan` held when it entered the `select`. -/
  | waiting (t : Ticker) (c : Option Chan)
  /-- Inside the `massDM` call of line 97. -/
  | broadcasting
  /-- Has taken the value from `stopChan` (line 98); lines 99-102 still to run. -/
  | stopping
  deriving DecidableEq, Repr

/-- A periodic goroutine: the `m.ChannelID` it captured and where it stands. -/
structure LoopThread where
  replyChannelID : String
  phase : Phase
  deriving DecidableEq, Repr

/-- A handler goroutine that has not returned yet. -/
inductive Pending where
  /-- Has read `ticker == nil` at line 80 and `len(parts) >= 3` at line 85;
  lines 89-106 still to run. -/
  | start (m : Message)
  /-- Has read `ticker != nil` at line 111 and is blocked in the send of
  line 115, on the channel `stopChan` held at that moment. -/
  | stop (m : Message) (c : Option Chan)
  deriving DecidableEq, Repr

/-- The process with its goroutines: the package-level variables, the periodic
goroutines, the handlers that have not returned, whether the process has died
of a panic, and everything emitted so far. -/
structure Interleaved where
  st : State
  loops : List LoopThread
  pending : List Pending
  crashed : Bool
  trace : List Effect
  deriving DecidableEq, Repr

/-- One piece of one goroutine. -/
inductive Action where
  /-- A new handler runs from line 56 up to its first write or blocking send,
  or to its end when it has neither. -/
  | arrive (m : Message)
  /-- The handler at position `i` of the pending ones goes on. -/
  | resume (i : Nat)
  /-- The ticker of the loop at position `j` fires. -/
  | tick (j : Nat)
  /-- The `massDM` call of the loop at position `j` returns. -/
  | broadcastDone (j : Nat)
  /-- The loop at position `j` runs lines 99-102. -/
  | finishStop (j : Nat)
  deriving DecidableEq, Repr

/-- The handler of `m` gets past the checks of lines 57, 79, 80 and 85 with
the variables as they are now. -/
def passesStartChecks (selfID : String) (m : Message) (st : State) : Bool :=
  decide (m.authorID ≠ selfID) && stringsHasPrefix m.content "!startmassdm " &&
    decide (st.ticker = none) && decide (3 ≤ (stringsSplitN m.content ' ' 3).length)

/-- The handler of `m` gets past the checks of lines 57, 110 and 111 with the
variables as they are now. -/
def passesStopChecks (selfID : String) (m : Message) (st : State) : Bool :=
  decide (m.authorID ≠ selfID) && decide (m.content = "!stopmassdm") &&
    decide (st.ticker ≠ none)

/-- The first loop waiting on channel `c` takes the value sent on it. -/
def takeStop (c : Chan) : List LoopThread → Option (List LoopThread)
  | [] => none
  | l :: ls =>
    match l.phase with
    | Phase.waiting _ (some c') =>
      if c' = c then some ({ l with phase := Phase.stopping } :: ls)
      else (takeStop c ls).map (fun r => l :: r)
    | _ => (takeStop c ls).map (fun r => l :: r)

/-- One step.  A step that cannot be taken (no such goroutine, a send nobody
can take, a ticker `ticker` no longer points to) leaves everything as it is.

* `arrive`: a start that passes its checks stops before line 89; a stop that
  passes its checks starts the send of line 115; any other handler neither
  writes nor blocks and runs to its end.
* `resume` of a start: lines 89-106, and the new goroutine enters its
  `select`.
* `resume` of a stop: the send is taken by a loop waiting on the same channel.
* `tick`: the loop calls `massDM` (line 97).
* `broadcastDone`: the loop enters its `select` again, reading `ticker` and
  `stopChan`; a nil `ticker` is a nil dereference.
* `finishStop`: the stop branch of `loopRound`. -/
def Interleaved.step (selfID : String) (sys : Interleaved) (a : Action) : Interleaved :=
  if sys.crashed then sys
  else
    match a with
    | Action.arrive m =>
      if passesStartChecks selfID m sys.st then
        { sys with pending := sys.pending ++ [Pending.start m] }
      else if passesStopChecks selfID m sys.st then
        { sys with
          pending := sys.pending ++ [Pending.stop m sys.st.stopChan]
          trace := sys.trace ++ [Effect.chanSend sys.st.stopChan] }
      else
        { sys with
          st := (messageCreate selfID m sys.st).1
          trace := sys.trace ++ (messageCreate selfID m sys.st).2 }
    | Action.resume i =>
      match sys.pending[i]? with
      | none => sys
      | some (Pending.start m) =>
        let parts := stringsSplitN m.content ' ' 3
        let t : Ticker := ⟨sys.st.fresh + 1, 120⟩
        let c : Chan := ⟨sys.st.fresh⟩
        { st := ⟨some t, some c, parts.getD 1 "", parts.getD 2 "", sys.st.fresh + 2⟩
          loops := sys.loops ++ [⟨m.channelID, Phase.waiting t (some c)⟩]
          pending := sys.pending.eraseIdx i
          crashed := false
          trace := sys.trace ++ [Effect.newTicker t, Effect.spawnLoop m.channelID,
            Effect.send m.channelID startedNotice] }
      | some (Pending.stop _ none) => sys
      | some (Pending.stop _ (some c)) =>
        match takeStop c sys.loops with
        | none => sys
        | some loops => { sys with loops := loops, pending := sys.pending.eraseIdx i }
    | Action.tick j =>
      match sys.loops[j]? with
      | some ⟨ch, Phase.waiting t _⟩ =>
        if sys.st.ticker = some t then
          match loopRound ch Wake.tick sys.st with
          | none => sys
          | some (st, out, _) =>
            { sys with
              st := st
              loops := sys.loops.set j ⟨ch, Phase.broadcasting⟩
              trace := sys.trace ++ out }
        else sys
      | _ => sys
    | Action.broadcastDone j =>
      match sys.loops[j]? with
      | some ⟨ch, Phase.broadcasting⟩ =>
        match sys.st.ticker with
        | none => { sys with loops := sys.loops.eraseIdx j, crashed := true }
        | some t => { sys with loops := sys.loops.set j ⟨ch, Phase.waiting t sys.st.stopChan⟩ }
      | _ => sys
    | Action.finishStop j =>
      match sys.loops[j]? with
      | some ⟨ch, Phase.stopping⟩ =>
        match loopRound ch Wake.stop sys.st with
        | none => { sys with loops := sys.loops.eraseIdx j, crashed := true }
        | some (st, out, _) =>
          { sys with st := st, loops := sys.loops.eraseIdx j, trace := sys.trace ++ out }
      | _ => sys

/-- A sequence of steps. -/
def Interleaved.run (selfID : String) (sys : Interleaved) (acts : List Action) : Interleaved :=
  acts.foldl (Interleaved.step selfID) sys

/-- The process right after start-up. -/
def Interleaved.init : Interleaved :=
  { st := ⟨none, none, "", "", 0⟩, loops := [], pending := [], crashed := false, trace := [] }

/-- Effects that `Process.perform` only records. -/
def Effect.isPlain : Effect → Bool
  | Effect.spawnLoop _ => false
  | Effect.chanSend _ => false
  | _ => true

/-- What holds between two events: the process is alive, no handler is stuck,
and either nothing is running (`ticker` nil, no loop) or exactly one loop
waits and both `ticker` and `stopChan` are set. -/
def Process.Sound (sys : Process) : Prop :=
  sys.crashed = false ∧ sys.blocked = 0 ∧
    ((sys.st.ticker = none ∧ sys.loops = []) ∨
      (∃ t c ch, sys.st.ticker = some t ∧ sys.st.stopChan = some c ∧ sys.loops = [ch]))

/-- Number of invocations of `massDM` recorded so far. -/
def Process.broadcasts (sys : Process) : Nat :=
  sys.trace.countP Effect.isMassDM

/-- Three members, the second one a bot. -/
def sampleMembers : List Member :=
  [⟨"1", "ann", false⟩, ⟨"2", "helperbot", true⟩, ⟨"3", "cy", false⟩]

/-- A service where every call succeeds. -/
def calmWorld : World :=
  { guildMembers := fun _ => Except.ok sampleMembers
    userChannelCreate := fun _ userID => Except.ok ("dm-" ++ userID)
    channelMessageSend := fun _ _ _ => Except.ok () }

/-- A service that rate-limits the send to the first member. -/
def rateLimitedWorld : World :=
  { guildMembers := fun _ => Except.ok sampleMembers
    userChannelCreate := fun _ userID => Except.ok ("dm-" ++ userID)
    channelMessageSend := fun i _ _ =>
      if i = 0 then Except.error "HTTP 429 Too Many Requests" else Except.ok () }

/-- A service that refuses the direct-message channel of the first member. -/
def closedDMWorld : World :=
  { guildMembers := fun _ => Except.ok sampleMembers
    userChannelCreate := fun i userID =>
      if i = 0 then Except.error "HTTP 403 Forbidden" else Except.ok ("dm-" ++ userID)
    channelMessageSend := fun _ _ _ => Except.ok () }

/-- A service whose member listing fails. -/
def downWorld : World :=
  { guildMembers := fun _ => Except.error "HTTP 403 Forbidden"
    userChannelCreate := fun _ userID => Except.ok ("dm-" ++ userID)
    channelMessageSend := fun _ _ _ => Except.ok () }

/-- A state with a periodic job set up by an earlier start. -/
def runningState : State :=
  ⟨some ⟨1, 120⟩, some ⟨0⟩, "G", "hello", 2⟩

/-- A start message from a user. -/
def startMessage : Message := ⟨"user", "chan", "!startmassdm G hello"⟩

/-- A stop message from a user. -/
def stopMessage : Message := ⟨"user", "chan", "!stopmassdm"⟩

theorem hasPrefix_iff (s pre : String) :
    stringsHasPrefix s pre = true ↔ ∃ t, s.data = pre.data ++ t := by
  unfold stringsHasPrefix
  rw [List.isPrefixOf_iff_prefix]
  constructor
  · rintro ⟨t, ht⟩; exact ⟨t, ht.symm⟩
  · rintro ⟨t, ht⟩; exact ⟨t, ht.symm⟩

theorem start_not_massdm (s : String) (h : stringsHasPrefix s "!startmassdm " = true) :
    stringsHasPrefix s "!massdm " = false := by
  obtain ⟨t, ht⟩ := (hasPrefix_iff _ _).1 h
  unfold stringsHasPrefix
  rw [ht]
  rfl

theorem start_not_ping (s : String) (h : stringsHasPrefix s "!startmassdm " = true) :
    stringsHasPrefix s "!ping" = false := by
  obtain ⟨t, ht⟩ := (hasPrefix_iff _ _).1 h
  unfold stringsHasPrefix
  rw [ht]
  rfl

theorem messageCreate_stop_idle (selfID : String) (m : Message) (st : State)
    (hAuthor : m.authorID ≠ selfID) (hIdle : st.ticker = none)
    (hStop : m.content = "!stopmassdm") :
    messageCreate selfID m st = (st, [Effect.send m.channelID nothingRunning]) := by
  have h1 : stringsHasPrefix "!stopmassdm" "!ping" = false := rfl
  have h2 : stringsHasPrefix "!stopmassdm" "!massdm " = false := rfl
  have h3 : stringsHasPrefix "!stopmassdm" "!startmassdm " = false := rfl
  simp [messageCreate, massdmBlock, startBlock, stopBlock, hAuthor, hIdle, h1, h2, h3, hStop]

theorem perform_plain (sys : Process) (e : Effect) (h : e.isPlain = true) :
    sys.perform e = { sys with trace := sys.trace ++ [e] } := by
  cases e <;> simp [Effect.isPlain] at h <;> rfl

theorem foldl_perform_plain (out : List Effect) (sys : Process)
    (h : ∀ e ∈ out, e.isPlain = true) :
    out.foldl Process.perform sys = { sys with trace := sys.trace ++ out } := by
  induction out generalizing sys with
  | nil => simp
  | cons e rest ih =>
    rw [List.foldl_cons, perform_plain sys e (h e (List.mem_cons_self _ _)),
      ih _ (fun x hx => h x (List.mem_cons_of_mem _ hx))]
    simp

theorem start_ne_stop (s : String) (h : stringsHasPrefix s "!startmassdm " = true) :
    s ≠ "!stopmassdm" := by
  intro hs
  rw [hs] at h
  exact absurd h (by decide)

/-- The three shapes a run of the handler can have: it neither writes nor
blocks; it passes the start checks and sets up a job; it passes the stop
checks and sends on `stopChan`. -/
theorem messageCreate_shape (selfID : String) (m : Message) (st : State) :
    (∃ out, (∀ e ∈ out, e.isPlain = true) ∧ messageCreate selfID m st = (st, out)) ∨
    (passesStartChecks selfID m st = true ∧ st.ticker = none ∧
      ∃ out g msg, (∀ e ∈ out, e.isPlain = true) ∧
      messageCreate selfID m st =
        (⟨some ⟨st.fresh + 1, 120⟩, some ⟨st.fresh⟩, g, msg, st.fresh + 2⟩,
          out ++ [Effect.spawnLoop m.channelID, Effect.send m.channelID startedNotice])) ∨
    (passesStopChecks selfID m st = true ∧ st.ticker ≠ none ∧
      ∃ out, (∀ e ∈ out, e.isPlain = true) ∧
      messageCreate selfID m st = (st, out ++ [Effect.chanSend st.stopChan])) := by
  unfold messageCreate
  by_cases hA : m.authorID = selfID
  · left; exact ⟨[], by simp, by simp [hA]⟩
  · simp only [hA, if_false]
    generalize hout : (if stringsHasPrefix m.content "!ping" = true then
      [Effect.send m.channelID "Pong!"] else []) = out0
    have h0 : ∀ e ∈ out0, e.isPlain = true := by
      subst hout; split <;> simp [Effect.isPlain]
    -- the stop block
    have hstop : ∀ out, (∀ e ∈ out, e.isPlain = true) →
        (∃ out', (∀ e ∈ out', e.isPlain = true) ∧ stopBlock m st out = (st, out')) ∨
        (passesStopChecks selfID m st = true ∧ st.ticker ≠ none ∧
          ∃ out', (∀ e ∈ out', e.isPlain = true) ∧
          stopBlock m st out = (st, out' ++ [Effect.chanSend st.stopChan])) := by
      intro out ho
      unfold stopBlock
      by_cases hc : m.content = "!stopmassdm"
      · by_cases ht : st.ticker = none
        · left
          refine ⟨out ++ [Effect.send m.channelID nothingRunning], ?_, by simp [hc, ht]⟩
          intro e he
          rcases List.mem_append.1 he with h | h
          · exact ho e h
          · simp at h; subst h; rfl
        · right
          exact ⟨by simp [passesStopChecks, hA, hc, ht], ht, out, ho, by simp [hc, ht]⟩
      · left; exact ⟨out, ho, by simp [hc]⟩
    -- the start block
    have hstart : ∀ out, (∀ e ∈ out, e.isPlain = true) →
        (∃ out', (∀ e ∈ out', e.isPlain = true) ∧ startBlock m st out = (st, out')) ∨
        (passesStartChecks selfID m st = true ∧ st.ticker = none ∧
          ∃ out' g msg, (∀ e ∈ out', e.isPlain = true) ∧
          startBlock m st out =
            (⟨some ⟨st.fresh + 1, 120⟩, some ⟨st.fresh⟩, g, msg, st.fresh + 2⟩,
              out' ++ [Effect.spawnLoop m.channelID, Effect.send m.channelID startedNotice])) ∨
        (passesStopChecks selfID m st = true ∧ st.ticker ≠ none ∧
          ∃ out', (∀ e ∈ out', e.isPlain = true) ∧
          startBlock m st out = (st, out' ++ [Effect.chanSend st.stopChan])) := by
      intro out ho
      unfold startBlock
      by_cases hp : stringsHasPrefix m.content "!startmassdm " = true
      · by_cases ht : st.ticker = none
        · by_cases hl : (stringsSplitN m.content ' ' 3).length < 3
          · left
            refine ⟨out ++ [Effect.send m.channelID usageStartMassDM], ?_, by simp [hp, ht, hl]⟩
            intro e he
            rcases List.mem_append.1 he with h | h
            · exact ho e h
            · simp at h; subst h; rfl
          · right; left
            have hpass : passesStartChecks selfID m st = true := by
              have : 3 ≤ (stringsSplitN m.content ' ' 3).length := by omega
              simp [passesStartChecks, hA, hp, ht, this]
            refine ⟨hpass, ht, out ++ [Effect.newTicker ⟨st.fresh + 1, 120⟩],
              (stringsSplitN m.content ' ' 3).getD 1 "",
              (stringsSplitN m.content ' ' 3).getD 2 "", ?_, ?_⟩
            rotate_left
            · simp only [hp, ht, hl, if_true, if_false, ne_eq, not_true_eq_false]
              simp only [stopBlock, start_ne_stop _ hp, if_false]
              simp
            · intro e he
              rcases List.mem_append.1 he with h | h
              · exact ho e h
              · simp at h; subst h; rfl
        · left
          refine ⟨out ++ [Effect.send m.channelID alreadyRunning], ?_, by simp [hp, ht]⟩
          intro e he
          rcases List.mem_append.1 he with h | h
          · exact ho e h
          · simp at h; subst h; rfl
      · simp only [hp, if_false]
        rcases hstop out ho with h | h
        · left; exact h
        · right; right; exact h
    unfold massdmBlock
    by_cases hp : stringsHasPrefix m.content "!massdm " = true
    · by_cases hl : (stringsSplitN m.content ' ' 3).length < 3
      · left
        refine ⟨out0 ++ [Effect.send m.channelID usageMassDM], ?_, by simp [hp, hl]⟩
        intro e he
        rcases List.mem_append.1 he with h | h
        · exact h0 e h
        · simp at h; subst h; rfl
      · simp only [hp, hl, if_true, if_false]
        apply hstart
        intro e he
        rcases List.mem_append.1 he with h | h
        · exact h0 e h
        · simp at h; subst h; rfl
    · simp only [hp, if_false]
      exact hstart out0 h0

theorem sound_init : Process.init.Sound := by
  simp [Process.Sound, Process.init]

theorem foldl_perform_append (a b : List Effect) (sys : Process) :
    (a ++ b).foldl Process.perform sys = b.foldl Process.perform (a.foldl Process.perform sys) :=
  List.foldl_append _ _ _ _

theorem sound_step (selfID : String) (sys : Process) (ev : Event) (h : sys.Sound) :
    (sys.step selfID ev).Sound := by
  obtain ⟨hc, hb, hl⟩ := h
  unfold Process.step
  simp only [hc, Bool.false_eq_true, if_false]
  cases ev with
  | tick =>
    rcases hl with ⟨ht, hl⟩ | ⟨t, c, ch, ht, hs, hl⟩
    · simp [hl, Process.Sound, hc, hb, ht]
    · simp [hl, loopRound, Process.Sound, hc, hb, ht, hs]
  | message m =>
    simp only
    rcases messageCreate_shape selfID m sys.st with
      ⟨out, ho, he⟩ | ⟨_, hidle, out, g, msg, ho, he⟩ | ⟨_, hrun, out, ho, he⟩
    · rw [he]
      simp only [foldl_perform_plain out _ ho]
      exact ⟨rfl, hb, by simpa using hl⟩
    · rw [he]
      simp only [foldl_perform_append, foldl_perform_plain out _ ho]
      rcases hl with ⟨_, hl⟩ | ⟨t, c, ch, ht, _, _⟩
      · simp [Process.perform, Process.Sound, hc, hb, hl]
      · rw [ht] at hidle; cases hidle
    · rw [he]
      simp only [foldl_perform_append, foldl_perform_plain out _ ho]
      rcases hl with ⟨ht, _⟩ | ⟨t, c, ch, ht, hs, hl⟩
      · exact absurd ht hrun
      · simp [Process.perform, Process.Sound, hc, hb, hl, hs, ht, loopRound]

theorem sound_run (selfID : String) (evs : List Event) (sys : Process) (h : sys.Sound) :
    (sys.run selfID evs).Sound := by
  induction evs generalizing sys with
  | nil => exact h
  | cons ev rest ih => exact ih _ (sound_step selfID sys ev h)


theorem cutAt_none (sep : Char) (s : List Char) (h : sep ∉ s) : cutAt sep s = none := by
  induction s with
  | nil => rfl
  | cons c cs ih =>
    have hc : ¬ c = sep := fun e => h (by simp [e])
    have hcs : sep ∉ cs := fun e => h (List.mem_cons_of_mem _ e)
    simp [cutAt, hc, ih hcs]

theorem cutAt_append (sep : Char) (a r : List Char) (h : sep ∉ a) :
    cutAt sep (a ++ sep :: r) = some (a, r) := by
  induction a with
  | nil => simp [cutAt]
  | cons c cs ih =>
    have hc : ¬ c = sep := fun e => h (by simp [e])
    have hcs : sep ∉ cs := fun e => h (List.mem_cons_of_mem _ e)
    simp [cutAt, hc, ih hcs]

/-- A command word, one space and a text without a space split into two pieces. -/
theorem splitN_two (cmd arg : String) (hc : ' ' ∉ cmd.data) (ha : ' ' ∉ arg.data) :
    stringsSplitN (cmd ++ " " ++ arg) ' ' 3 = [cmd, arg] := by
  have hd : (cmd ++ " " ++ arg).data = cmd.data ++ ' ' :: arg.data := by
    simp [String.data_append]
  simp [stringsSplitN, hd, splitChars, cutAt_append _ _ _ hc, cutAt_none _ _ ha]

/-- A command word, one space, a text without a space, one space and any text
split into three pieces. -/
theorem splitN_three (cmd g msg : String) (hc : ' ' ∉ cmd.data) (hg : ' ' ∉ g.data) :
    stringsSplitN (cmd ++ " " ++ g ++ " " ++ msg) ' ' 3 = [cmd, g, msg] := by
  have hd : (cmd ++ " " ++ g ++ " " ++ msg).data
      = cmd.data ++ ' ' :: (g.data ++ ' ' :: msg.data) := by
    simp [String.data_append]
  simp [stringsSplitN, hd, splitChars, cutAt_append _ _ _ hc, cutAt_append _ _ _ hg]

theorem hasPrefix_append (pre t : String) : stringsHasPrefix (pre ++ t) pre = true := by
  rw [hasPrefix_iff]
  exact ⟨t.data, by simp [String.data_append]⟩


theorem messageCreate_stop_running (selfID : String) (m : Message) (st : State)
    (hAuthor : m.authorID ≠ selfID) (hRun : st.ticker ≠ none)
    (hStop : m.content = "!stopmassdm") :
    messageCreate selfID m st = (st, [Effect.chanSend st.stopChan]) := by
  have h1 : stringsHasPrefix "!stopmassdm" "!ping" = false := rfl
  have h2 : stringsHasPrefix "!stopmassdm" "!massdm " = false := rfl
  have h3 : stringsHasPrefix "!stopmassdm" "!startmassdm " = false := rfl
  simp [messageCreate, massdmBlock, startBlock, stopBlock, hAuthor, hRun, h1, h2, h3, hStop]

theorem messageCreate_start_idle (selfID : String) (m : Message) (st : State) (g msg : String)
    (hAuthor : m.authorID ≠ selfID) (hIdle : st.ticker = none)
    (hContent : m.content = "!startmassdm " ++ g ++ " " ++ msg) (hG : ' ' ∉ g.data) :
    messageCreate selfID m st =
      (⟨some ⟨st.fresh + 1, 120⟩, some ⟨st.fresh⟩, g, msg, st.fresh + 2⟩,
        [Effect.newTicker ⟨st.fresh + 1, 120⟩, Effect.spawnLoop m.channelID,
          Effect.send m.channelID startedNotice]) := by
  have hc : m.content = "!startmassdm" ++ " " ++ g ++ " " ++ msg := by rw [hContent]; rfl
  have hsplit := splitN_three "!startmassdm" g msg (by decide) hG
  rw [← hc] at hsplit
  have hp : stringsHasPrefix m.content "!startmassdm " = true := by
    rw [hContent, String.append_assoc, String.append_assoc]
    exact hasPrefix_append _ _
  simp [messageCreate, massdmBlock, startBlock, stopBlock, hAuthor, hIdle, hp,
    start_not_massdm _ hp, start_not_ping _ hp, start_ne_stop _ hp, hsplit]

/-- A stop message in a state where one loop waits: the loop takes the signal,
stops the ticker, clears `ticker`, reports and ends. -/
theorem step_stop_running (selfID : String) (sys : Process) (m : Message) (t : Ticker) (c : Chan)
    (ch : String) (hc : sys.crashed = false) (ht : sys.st.ticker = some t)
    (hs : sys.st.stopChan = some c) (hl : sys.loops = [ch])
    (hAuthor : m.authorID ≠ selfID) (hStop : m.content = "!stopmassdm") :
    sys.step selfID (Event.message m) =
      { st := { sys.st with ticker := none }
        loops := []
        blocked := sys.blocked
        crashed := false
        trace := sys.trace ++ [Effect.chanSend (some c), Effect.tickerStop t,
          Effect.send ch stoppedNotice] } := by
  have hrun : sys.st.ticker ≠ none := by rw [ht]; simp
  simp [Process.step, hc, messageCreate_stop_running selfID m sys.st hAuthor hrun hStop,
    Process.perform, hs, hl, loopRound, ht]

/-- A stop message in a state where nothing runs: only the notice. -/
theorem step_stop_idle (selfID : String) (sys : Process) (m : Message)
    (hc : sys.crashed = false) (ht : sys.st.ticker = none)
    (hAuthor : m.authorID ≠ selfID) (hStop : m.content = "!stopmassdm") :
    sys.step selfID (Event.message m) =
      { sys with trace := sys.trace ++ [Effect.send m.channelID nothingRunning] } := by
  simp [Process.step, hc, messageCreate_stop_idle selfID m sys.st hAuthor ht hStop, Process.perform]

/-- A well-formed start message in a state where nothing runs. -/
theorem step_start_idle (selfID : String) (sys : Process) (m : Message) (g msg : String)
    (hc : sys.crashed = false) (ht : sys.st.ticker = none)
    (hAuthor : m.authorID ≠ selfID)
    (hContent : m.content = "!startmassdm " ++ g ++ " " ++ msg) (hG : ' ' ∉ g.data) :
    sys.step selfID (Event.message m) =
      { st :=
          ⟨some ⟨sys.st.fresh + 1, 120⟩, some ⟨sys.st.fresh⟩, g, msg, sys.st.fresh + 2⟩
        loops := sys.loops ++ [m.channelID]
        blocked := sys.blocked
        crashed := sys.crashed
        trace := sys.trace ++ [Effect.newTicker ⟨sys.st.fresh + 1, 120⟩,
          Effect.spawnLoop m.channelID, Effect.send m.channelID startedNotice] } := by
  simp [Process.step, hc, messageCreate_start_idle selfID m sys.st g msg hAuthor ht hContent hG,
    Process.perform]


theorem loop_append (w : World) (message : String) (pre post : List Member) (i k : Nat) :
    massDMLoop w message i (pre ++ post) k =
      ((massDMLoop w message (i + pre.length) post (massDMLoop w message i pre k).1).1,
        (massDMLoop w message i pre k).2 ++
          (massDMLoop w message (i + pre.length) post (massDMLoop w message i pre k).1).2) := by
  induction pre generalizing i k with
  | nil => simp [massDMLoop]
  | cons member rest ih =>
    have hlen : i + (member :: rest).length = i + 1 + rest.length := by
      simp only [List.length_cons]; omega
    rw [List.cons_append, hlen, massDMLoop, massDMLoop, ih]
    simp only [List.append_assoc]

/-- The run of `massDM` cut at one member: the members before it, the loop
body for it, the members after it. -/
theorem massDM_split (w : World) (guildID message replyChannelID : String)
    (pre post : List Member) (member : Member)
    (hFetch : w.guildMembers guildID = Except.ok (pre ++ member :: post)) :
    massDM w guildID message replyChannelID =
      [Effect.guildMembers guildID "" 1000,
        Effect.send replyChannelID (progressText (pre ++ member :: post).length)]
      ++ (massDMLoop w message 0 pre 0).2
      ++ (deliver w message pre.length member).1
      ++ (massDMLoop w message (pre.length + 1) post
          (if (deliver w message pre.length member).2 then (massDMLoop w message 0 pre 0).1 + 1
            else (massDMLoop w message 0 pre 0).1)).2
      ++ [Effect.send replyChannelID (summaryText
          (massDMLoop w message (pre.length + 1) post
            (if (deliver w message pre.length member).2 then (massDMLoop w message 0 pre 0).1 + 1
              else (massDMLoop w message 0 pre 0).1)).1
          (pre ++ member :: post).length)] := by
  unfold massDM
  rw [hFetch]
  simp only [loop_append, massDMLoop, Nat.zero_add, List.append_assoc]

theorem messageCreate_usage (selfID : String) (m : Message) (st : State) (arg : String)
    (hAuthor : m.authorID ≠ selfID) (hContent : m.content = "!massdm " ++ arg)
    (hArg : ' ' ∉ arg.data) :
    messageCreate selfID m st = (st, [Effect.send m.channelID usageMassDM]) := by
  have hc : m.content = "!massdm" ++ " " ++ arg := by rw [hContent]; rfl
  have hsplit := splitN_two "!massdm" arg (by decide) hArg
  rw [← hc] at hsplit
  have hp : stringsHasPrefix m.content "!massdm " = true := by
    rw [hContent]; exact hasPrefix_append _ _
  have hping : stringsHasPrefix m.content "!ping" = false := by
    rw [hContent]
    unfold stringsHasPrefix
    rw [String.data_append]
    rfl
  simp [messageCreate, massdmBlock, hAuthor, hp, hping, hsplit]

theorem messageCreate_no_massDM (selfID : String) (m : Message) (st : State)
    (hNo : stringsHasPrefix m.content "!massdm " = false) :
    ∀ e ∈ (messageCreate selfID m st).2, e.isMassDM = false := by
  unfold messageCreate massdmBlock startBlock stopBlock
  simp only [hNo, Bool.false_eq_true, if_false]
  split_ifs <;> simp [Effect.isMassDM]

theorem messageCreate_no_usage (selfID : String) (m : Message) (st : State)
    (hNo : stringsHasPrefix m.content "!massdm " = false) (channelID : String) :
    Effect.send channelID usageMassDM ∉ (messageCreate selfID m st).2 := by
  have h1 : ("Usage: !massdm <guild_id> <message>" : String) ≠ "Pong!" := by decide
  have h2 : ("Usage: !massdm <guild_id> <message>" : String)
      ≠ "Periodic mass DM already running. Use !stopmassdm to stop it first." := by decide
  have h3 : ("Usage: !massdm <guild_id> <message>" : String)
      ≠ "Usage: !startmassdm <guild_id> <message>" := by decide
  have h4 : ("Usage: !massdm <guild_id> <message>" : String)
      ≠ "Periodic mass DM started. Sending every 2 minutes." := by decide
  have h5 : ("Usage: !massdm <guild_id> <message>" : String)
      ≠ "No periodic mass DM is running." := by decide
  unfold messageCreate massdmBlock startBlock stopBlock
  simp only [hNo, Bool.false_eq_true, if_false]
  split_ifs <;>
    simp [usageMassDM, alreadyRunning, usageStartMassDM, startedNotice, nothingRunning,
      h1, h2, h3, h4, h5]

/-! ## The claims -/

/-- C1, as stated, fails on each of the three inputs it lists: the bare
`!massdm` gets no reply at all, and `!massdm  x` and `!massdm G ` each start a
broadcast (with an empty group id, resp. an empty message) instead of the
usage reply. -/
theorem massdm_usage_fails_on_listed_inputs :
    messageCreate "bot" ⟨"user", "chan", "!massdm"⟩ Process.init.st
        = (Process.init.st, []) ∧
      messageCreate "bot" ⟨"user", "chan", "!massdm  x"⟩ Process.init.st
        = (Process.init.st, [Effect.spawnMassDM "" "x" "chan"]) ∧
      messageCreate "bot" ⟨"user", "chan", "!massdm G "⟩ Process.init.st
        = (Process.init.st, [Effect.spawnMassDM "G" "" "chan"]) := by
  decide

/-- C1, amended: for a message of another author, (a) when the content is
`!massdm ` followed by a text without a space (the inputs `SplitN` cuts into
fewer than 3 pieces), the handler changes nothing, starts no broadcast and
replies with the usage message only; (b) when the content does not start with
`!massdm ` (the bare `!massdm` included), the handler invokes `massDM` neither
directly nor in a goroutine, and it sends the usage message of `!massdm` to no
channel. -/
theorem massdm_usage_on_short_command (selfID : String) (m : Message) (st : State)
    (hAuthor : m.authorID ≠ selfID) :
    (∀ arg : String, m.content = "!massdm " ++ arg → ' ' ∉ arg.data →
        messageCreate selfID m st
          = (st, [Effect.send m.channelID "Usage: !massdm <guild_id> <message>"])) ∧
      (stringsHasPrefix m.content "!massdm " = false →
        (∀ e ∈ (messageCreate selfID m st).2, e.isMassDM = false) ∧
          ∀ channelID : String,
            Effect.send channelID "Usage: !massdm <guild_id> <message>"
              ∉ (messageCreate selfID m st).2) :=
  ⟨fun arg hContent hArg => messageCreate_usage selfID m st arg hAuthor hContent hArg,
    fun hNo => ⟨messageCreate_no_massDM selfID m st hNo,
      fun channelID => messageCreate_no_usage selfID m st hNo channelID⟩⟩

/-- Witness for C1 (amended): `!massdm G` from a user. -/
theorem massdm_usage_on_short_command_witness :
    ("user" : String) ≠ "bot" ∧
      messageCreate "bot" ⟨"user", "chan", "!massdm G"⟩ runningState
        = (runningState, [Effect.send "chan" "Usage: !massdm <guild_id> <message>"]) :=
  ⟨by decide,
    (massdm_usage_on_short_command "bot" ⟨"user", "chan", "!massdm G"⟩ runningState
      (by decide)).1 "G" rfl (by decide)⟩

/-- C3: with no periodic job active (`ticker` nil), the message `!stopmassdm`
of another author gets the nothing-running notice and nothing else: nothing is
sent on `stopChan` and no package-level variable changes. -/
theorem stop_while_idle_rejected (selfID : String) (m : Message) (st : State)
    (hAuthor : m.authorID ≠ selfID) (hIdle : st.ticker = none)
    (hStop : m.content = "!stopmassdm") :
    messageCreate selfID m st
      = (st, [Effect.send m.channelID "No periodic mass DM is running."]) :=
  messageCreate_stop_idle selfID m st hAuthor hIdle hStop

/-- Witness for C3: a stop right after start-up. -/
theorem stop_while_idle_rejected_witness :
    stopMessage.authorID ≠ "bot" ∧ Process.init.st.ticker = none ∧
      stopMessage.content = "!stopmassdm" ∧
      messageCreate "bot" stopMessage Process.init.st
        = (Process.init.st, [Effect.send "chan" "No periodic mass DM is running."]) :=
  ⟨by decide, rfl, rfl,
    stop_while_idle_rejected "bot" stopMessage Process.init.st (by decide) rfl rfl⟩

/-- C6: in any state reached from start-up in which nothing runs, a
well-formed `!startmassdm <g> <msg>` of another author records `g` and `msg`,
creates the ticker and one waiting loop and invokes `massDM` zero times; a
`!stopmassdm` handled next, with no tick in between, is taken by that loop,
which stops the ticker and sets `ticker` to nil: no loop is left, nobody is
blocked and `massDM` has still been invoked zero times.  A tick handled after
the start instead makes the loop call `massDM` once, with `g` and `msg`. -/
theorem start_then_stop_sends_nothing (selfID : String) (evs : List Event)
    (author channelID g msg : String) (m₂ : Message)
    (hIdle : (Process.init.run selfID evs).st.ticker = none)
    (hAuthor₁ : author ≠ selfID) (hG : ' ' ∉ g.data)
    (hAuthor₂ : m₂.authorID ≠ selfID) (hStop₂ : m₂.content = "!stopmassdm") :
    let s₀ := Process.init.run selfID evs
    let s₁ := s₀.step selfID
      (Event.message ⟨author, channelID, "!startmassdm " ++ g ++ " " ++ msg⟩)
    let s₂ := s₁.step selfID (Event.message m₂)
    (s₁.st.ticker = some ⟨s₀.st.fresh + 1, 120⟩ ∧ s₁.st.currentGuildID = g ∧
        s₁.st.currentMessage = msg ∧ s₁.loops = [channelID] ∧
        s₁.trace = s₀.trace ++ [Effect.newTicker ⟨s₀.st.fresh + 1, 120⟩,
          Effect.spawnLoop channelID,
          Effect.send channelID "Periodic mass DM started. Sending every 2 minutes."] ∧
        s₁.broadcasts = s₀.broadcasts) ∧
      (s₂.st.ticker = none ∧ s₂.loops = [] ∧ s₂.blocked = 0 ∧ s₂.crashed = false ∧
        s₂.trace = s₁.trace ++ [Effect.chanSend (some ⟨s₀.st.fresh⟩),
          Effect.tickerStop ⟨s₀.st.fresh + 1, 120⟩,
          Effect.send channelID "Periodic mass DM stopped."] ∧
        s₂.broadcasts = s₀.broadcasts) ∧
      (s₁.step selfID Event.tick).trace = s₁.trace ++ [Effect.callMassDM g msg channelID] := by
  intro s₀ s₁ s₂
  obtain ⟨hc, hb, hl⟩ := sound_run selfID evs Process.init sound_init
  rcases hl with ⟨ht, hl⟩ | ⟨t, c, ch, ht, _, _⟩
  · have e₁ : s₁ = _ :=
      step_start_idle selfID s₀ ⟨author, channelID, _⟩ g msg hc ht hAuthor₁ rfl hG
    have hl' : s₀.loops = [] := hl
    have hc' : s₀.crashed = false := hc
    have hb' : s₀.blocked = 0 := hb
    simp only [hl', hc', hb', List.nil_append] at e₁
    have e₂ : s₂ = _ := step_stop_running selfID s₁ m₂ ⟨s₀.st.fresh + 1, 120⟩ ⟨s₀.st.fresh⟩
      channelID (by rw [e₁]) (by rw [e₁]) (by rw [e₁]) (by rw [e₁]) hAuthor₂ hStop₂
    refine ⟨⟨by rw [e₁], by rw [e₁], by rw [e₁], by rw [e₁], by rw [e₁]; rfl, ?_⟩,
      ⟨by rw [e₂], by rw [e₂], by rw [e₂, e₁], by rw [e₂], by rw [e₂]; rfl, ?_⟩, ?_⟩
    · rw [e₁]; simp [Process.broadcasts, Effect.isMassDM]
    · rw [e₂, e₁]; simp [Process.broadcasts, Effect.isMassDM]
    · rw [e₁]; simp [Process.step, loopRound]
  · exact absurd hIdle (by rw [ht]; simp)

/-- Witness for C6: `!startmassdm G hello` then `!stopmassdm` right after
start-up. -/
theorem start_then_stop_sends_nothing_witness :
    (Process.init.run "bot" []).st.ticker = none ∧ ("user" : String) ≠ "bot" ∧
      ' ' ∉ ("G" : String).data ∧
      ((Process.init.step "bot" (Event.message startMessage)).step "bot"
          (Event.message stopMessage)).st.ticker = none ∧
      ((Process.init.step "bot" (Event.message startMessage)).step "bot"
          (Event.message stopMessage)).broadcasts = 0 :=
  ⟨rfl, by decide, by decide,
    (start_then_stop_sends_nothing "bot" [] "user" "chan" "G" "hello" stopMessage
      rfl (by decide) (by decide) (by decide) rfl).2.1.1,
    (start_then_stop_sends_nothing "bot" [] "user" "chan" "G" "hello" stopMessage
      rfl (by decide) (by decide) (by decide) rfl).2.1.2.2.2.2.2⟩

/-- C8: when the member fetch fails, `massDM` emits the one fetch and the
error report to the reply channel, and nothing else: no channel creation, no
direct message, no progress notice, no summary, no second fetch. -/
theorem fetch_failure_aborts (w : World) (guildID message replyChannelID err : String)
    (hFetch : w.guildMembers guildID = Except.error err) :
    massDM w guildID message replyChannelID =
      [Effect.guildMembers guildID "" 1000,
        Effect.send replyChannelID ("Error fetching members: " ++ err)] := by
  unfold massDM
  rw [hFetch]
  rfl

/-- Witness for C8: the member listing is refused. -/
theorem fetch_failure_aborts_witness :
    downWorld.guildMembers "G" = Except.error "HTTP 403 Forbidden" ∧
      massDM downWorld "G" "hi" "chan"
        = [Effect.guildMembers "G" "" 1000,
            Effect.send "chan" "Error fetching members: HTTP 403 Forbidden"] :=
  ⟨rfl, fetch_failure_aborts downWorld "G" "hi" "chan" "HTTP 403 Forbidden" rfl⟩

/-- C9: take any fetched list and any member in it that is not a bot, whose
channel is created and whose send fails with the error text `err`.  What
`massDM` emits for that member, between what it emits for the members before
and for the members after, is one channel creation, one send, one log line,
then a 60 s sleep exactly when `err` contains `429`, then the 1.5 s sleep; the
count carried to the next member is the count before this member. -/
theorem rate_limit_pauses_once (w : World) (guildID message replyChannelID : String)
    (pre post : List Member) (member : Member) (channel err : String)
    (hFetch : w.guildMembers guildID = Except.ok (pre ++ member :: post))
    (hBot : member.bot = false)
    (hCreate : w.userChannelCreate pre.length member.id = Except.ok channel)
    (hSend : w.channelMessageSend pre.length channel message = Except.error err) :
    (stringsContains err "429" = true →
      massDM w guildID message replyChannelID
        = [Effect.guildMembers guildID "" 1000,
            Effect.send replyChannelID (progressText (pre ++ member :: post).length)]
          ++ (massDMLoop w message 0 pre 0).2
          ++ [Effect.userChannelCreate member.id, Effect.send channel message,
              Effect.log (sendErrorLine member.username err),
              Effect.sleep 60000, Effect.sleep 1500]
          ++ (massDMLoop w message (pre.length + 1) post (massDMLoop w message 0 pre 0).1).2
          ++ [Effect.send replyChannelID (summaryText
              (massDMLoop w message (pre.length + 1) post (massDMLoop w message 0 pre 0).1).1
              (pre ++ member :: post).length)]) ∧
      (stringsContains err "429" = false →
        massDM w guildID message replyChannelID
          = [Effect.guildMembers guildID "" 1000,
              Effect.send replyChannelID (progressText (pre ++ member :: post).length)]
            ++ (massDMLoop w message 0 pre 0).2
            ++ [Effect.userChannelCreate member.id, Effect.send channel message,
                Effect.log (sendErrorLine member.username err), Effect.sleep 1500]
            ++ (massDMLoop w message (pre.length + 1) post (massDMLoop w message 0 pre 0).1).2
            ++ [Effect.send replyChannelID (summaryText
                (massDMLoop w message (pre.length + 1) post (massDMLoop w message 0 pre 0).1).1
                (pre ++ member :: post).length)]) := by
  have hsplit := massDM_split w guildID message replyChannelID pre post member hFetch
  constructor
  · intro h429
    have hd : deliver w message pre.length member
        = ([Effect.userChannelCreate member.id, Effect.send channel message,
            Effect.log (sendErrorLine member.username err),
            Effect.sleep 60000, Effect.sleep 1500], false) := by
      simp [deliver, hBot, hCreate, hSend, h429]
    rw [hsplit, hd]
    simp
  · intro h429
    have hd : deliver w message pre.length member
        = ([Effect.userChannelCreate member.id, Effect.send channel message,
            Effect.log (sendErrorLine member.username err), Effect.sleep 1500], false) := by
      simp [deliver, hBot, hCreate, hSend, h429]
    rw [hsplit, hd]
    simp

/-- Witness for C9: the send to the first of three members is rate limited. -/
theorem rate_limit_pauses_once_witness :
    rateLimitedWorld.guildMembers "G"
        = Except.ok ([] ++ (⟨"1", "ann", false⟩ : Member) :: [⟨"2", "helperbot", true⟩,
            ⟨"3", "cy", false⟩]) ∧
      stringsContains "HTTP 429 Too Many Requests" "429" = true ∧
      massDM rateLimitedWorld "G" "hi" "chan"
        = [Effect.guildMembers "G" "" 1000,
            Effect.send "chan" "Starting mass DM to 3 members. This may take time.",
            Effect.userChannelCreate "1", Effect.send "dm-1" "hi",
            Effect.log "Error sending DM to ann: HTTP 429 Too Many Requests",
            Effect.sleep 60000, Effect.sleep 1500,
            Effect.userChannelCreate "3", Effect.send "dm-3" "hi", Effect.sleep 1500,
            Effect.send "chan" "Mass DM complete. Sent to 1/3 members."] :=
  ⟨rfl, by decide,
    ((rate_limit_pauses_once rateLimitedWorld "G" "hi" "chan" [] [⟨"2", "helperbot", true⟩,
        ⟨"3", "cy", false⟩] ⟨"1", "ann", false⟩ "dm-1" "HTTP 429 Too Many Requests"
      rfl rfl rfl rfl).1 (by decide)).trans (by decide)⟩

/-- C10, as stated, fails when the channel creation fails: with the channel of
the first member refused, the loop goes from the log line straight to the next
member that is not a bot, with no sleep in between. -/
theorem no_pacing_after_channel_failure :
    massDM closedDMWorld "G" "hi" "chan"
      = [Effect.guildMembers "G" "" 1000,
          Effect.send "chan" "Starting mass DM to 3 members. This may take time.",
          Effect.userChannelCreate "1",
          Effect.log "Error creating DM with ann: HTTP 403 Forbidden",
          Effect.userChannelCreate "3", Effect.send "dm-3" "hi", Effect.sleep 1500,
          Effect.send "chan" "Mass DM complete. Sent to 1/3 members."] := by
  decide

/-- C10, amended: take any fetched list and any member in it that is not a
bot.  When its channel is created, what `massDM` emits for it ends with the
1.5 s sleep, whether the send succeeded, failed, or failed with a rate limit
(the 60 s sleep then comes before the 1.5 s one).  When its channel creation
fails, `massDM` emits the creation and a log line for it and goes on to the
next member without sleeping. -/
theorem pacing_after_each_send (w : World) (guildID message replyChannelID : String)
    (pre post : List Member) (member : Member)
    (hFetch : w.guildMembers guildID = Except.ok (pre ++ member :: post))
    (hBot : member.bot = false) :
    (∀ channel, w.userChannelCreate pre.length member.id = Except.ok channel →
      massDM w guildID message replyChannelID
        = [Effect.guildMembers guildID "" 1000,
            Effect.send replyChannelID (progressText (pre ++ member :: post).length)]
          ++ (massDMLoop w message 0 pre 0).2
          ++ ([Effect.userChannelCreate member.id, Effect.send channel message]
            ++ (match w.channelMessageSend pre.length channel message with
                | Except.ok _ => []
                | Except.error err =>
                  Effect.log (sendErrorLine member.username err) ::
                    (if stringsContains err "429" then [Effect.sleep 60000] else []))
            ++ [Effect.sleep 1500])
          ++ (massDMLoop w message (pre.length + 1) post
              (match w.channelMessageSend pre.length channel message with
                | Except.ok _ => (massDMLoop w message 0 pre 0).1 + 1
                | Except.error _ => (massDMLoop w message 0 pre 0).1)).2
          ++ [Effect.send replyChannelID (summaryText
              (massDMLoop w message (pre.length + 1) post
                (match w.channelMessageSend pre.length channel message with
                  | Except.ok _ => (massDMLoop w message 0 pre 0).1 + 1
                  | Except.error _ => (massDMLoop w message 0 pre 0).1)).1
              (pre ++ member :: post).length)]) ∧
      (∀ err, w.userChannelCreate pre.length member.id = Except.error err →
        massDM w guildID message replyChannelID
          = [Effect.guildMembers guildID "" 1000,
              Effect.send replyChannelID (progressText (pre ++ member :: post).length)]
            ++ (massDMLoop w message 0 pre 0).2
            ++ [Effect.userChannelCreate member.id,
                Effect.log (createErrorLine member.username err)]
            ++ (massDMLoop w message (pre.length + 1) post (massDMLoop w message 0 pre 0).1).2
            ++ [Effect.send replyChannelID (summaryText
                (massDMLoop w message (pre.length + 1) post (massDMLoop w message 0 pre 0).1).1
                (pre ++ member :: post).length)]) := by
  have hsplit := massDM_split w guildID message replyChannelID pre post member hFetch
  constructor
  · intro channel hCreate
    rw [hsplit]
    cases hSend : w.channelMessageSend pre.length channel message with
    | ok u => simp [deliver, hBot, hCreate, hSend]
    | error err => simp [deliver, hBot, hCreate, hSend]
  · intro err hCreate
    rw [hsplit]
    simp [deliver, hBot, hCreate]

/-- Witness for C10 (amended): the third of three members, all sends succeed. -/
theorem pacing_after_each_send_witness :
    calmWorld.guildMembers "G"
        = Except.ok ([⟨"1", "ann", false⟩, ⟨"2", "helperbot", true⟩]
            ++ (⟨"3", "cy", false⟩ : Member) :: []) ∧
      massDM calmWorld "G" "hi" "chan"
        = [Effect.guildMembers "G" "" 1000,
            Effect.send "chan" "Starting mass DM to 3 members. This may take time.",
            Effect.userChannelCreate "1", Effect.send "dm-1" "hi", Effect.sleep 1500,
            Effect.userChannelCreate "3", Effect.send "dm-3" "hi", Effect.sleep 1500,
            Effect.send "chan" "Mass DM complete. Sent to 2/3 members."] :=
  ⟨rfl,
    ((pacing_after_each_send calmWorld "G" "hi" "chan"
        [⟨"1", "ann", false⟩, ⟨"2", "helperbot", true⟩] [] ⟨"3", "cy", false⟩ rfl rfl).1
      "dm-3" rfl).trans (by decide)⟩

end Selfbotm
